import Mathlib

/-!
Verification of the tip-pooling calculator (newTipjar).

The development shallowly embeds the parts of the repository that the
claims are about:

* the calculate-distribution route handler of server routes
  (src/unnamed/part_001, registerRoutes, lines 98-158), including its
  input validation and the per-partner payout pipeline;
* the Bill Rounder and the payout formula, whose implementations
  (client/src/lib/billCalc and client/src/lib/utils) are imported by the
  route file but are not present under src/, so they are modelled from
  the specification text (each such definition is marked in its doc
  comment);
* the OCR-text parser extractPartnerHours
  (src/update-project/src/index.css, lines 271-292 of that bundle);
* the Gemini image-analysis wrapper analyzeImage
  (src/api/partners.js, lines 71-242 of that bundle).

JavaScript numbers are modelled by the type JsNum: NaN, the two
infinities, and finite values taken as exact rationals.  Finite float
arithmetic is idealised as exact rational arithmetic (no overflow,
no binary rounding, no negative zero); the claims settled here do not
depend on those float artifacts except where noted.
-/

/-- Model of a JavaScript number: NaN, positive and negative infinity,
or a finite value idealised as an exact rational. -/
inductive JsNum where
  | nan : JsNum
  | inf : JsNum
  | ninf : JsNum
  | fin (q : ℚ) : JsNum
deriving DecidableEq, Repr

/-- JavaScript isFinite: true exactly on finite values (NaN and the
infinities are not finite). -/
def JsNum.isFinite : JsNum → Bool
  | JsNum.fin _ => true
  | _ => false

/-- JavaScript strict less-than: every comparison with NaN is false;
negative infinity is below every non-NaN value, positive infinity above. -/
def JsNum.lt : JsNum → JsNum → Bool
  | JsNum.nan, _ => false
  | _, JsNum.nan => false
  | JsNum.ninf, JsNum.ninf => false
  | JsNum.ninf, _ => true
  | _, JsNum.ninf => false
  | JsNum.inf, _ => false
  | JsNum.fin _, JsNum.inf => true
  | JsNum.fin a, JsNum.fin b => decide (a < b)

/-- JavaScript less-or-equal: every comparison with NaN is false. -/
def JsNum.le : JsNum → JsNum → Bool
  | JsNum.nan, _ => false
  | _, JsNum.nan => false
  | JsNum.ninf, _ => true
  | _, JsNum.ninf => false
  | _, JsNum.inf => true
  | JsNum.inf, _ => false
  | JsNum.fin a, JsNum.fin b => decide (a ≤ b)

/-- JavaScript multiplication on the JsNum model: NaN is absorbing,
infinity times zero is NaN, signs propagate; finite times finite is
exact rational multiplication (float rounding and overflow idealised
away). -/
def JsNum.mul : JsNum → JsNum → JsNum
  | JsNum.nan, _ => JsNum.nan
  | _, JsNum.nan => JsNum.nan
  | JsNum.inf, JsNum.inf => JsNum.inf
  | JsNum.inf, JsNum.ninf => JsNum.ninf
  | JsNum.ninf, JsNum.inf => JsNum.ninf
  | JsNum.ninf, JsNum.ninf => JsNum.inf
  | JsNum.inf, JsNum.fin q => if 0 < q then JsNum.inf else if q < 0 then JsNum.ninf else JsNum.nan
  | JsNum.fin q, JsNum.inf => if 0 < q then JsNum.inf else if q < 0 then JsNum.ninf else JsNum.nan
  | JsNum.ninf, JsNum.fin q => if 0 < q then JsNum.ninf else if q < 0 then JsNum.inf else JsNum.nan
  | JsNum.fin q, JsNum.ninf => if 0 < q then JsNum.ninf else if q < 0 then JsNum.inf else JsNum.nan
  | JsNum.fin a, JsNum.fin b => JsNum.fin (a * b)

/-- The rational value of a finite JsNum; non-finite values are mapped
to 0 (only used under hypotheses that exclude them). -/
def jsToQ : JsNum → ℚ
  | JsNum.fin q => q
  | _ => 0

/-- Modelled from the spec: the cash denomination set of the Bill Rounder
(client/src/lib/billCalc is not under src/).  Spec section 4.2 fixes the
set as 20, 10, 5, 1 dollars and 25, 10, 5, 1 cents, walked from largest
to smallest; amounts are held in cents. -/
def denominationsCents : List ℕ := [2000, 1000, 500, 100, 25, 10, 5, 1]

/-- Modelled from the spec: step 1 of the Bill Rounder, standard half-up
rounding of a dollar amount to an integer number of cents. -/
def roundHalfUpCents (q : ℚ) : ℤ := ⌊q * 100 + 1 / 2⌋

/-- Modelled from the spec: step 2 of the Bill Rounder, the greedy
largest-to-smallest denomination walk.  At each denomination it takes
count = remaining / d, keeps remaining % d, and records the count only
when it is nonzero. -/
def greedy : List ℕ → ℕ → List (ℕ × ℕ)
  | [], _ => []
  | d :: ds, r =>
      let c := r / d
      let rest := greedy ds (r % d)
      if c = 0 then rest else (d, c) :: rest

/-- The amount left over after the greedy walk has visited every
denomination. -/
def greedyRem : List ℕ → ℕ → ℕ
  | [], r => r
  | d :: ds, r => greedyRem ds (r % d)

/-- Sum of denomination times count over a bill breakdown, in cents. -/
def reconstruct (bb : List (ℕ × ℕ)) : ℕ :=
  (bb.map (fun p => p.1 * p.2)).foldr (· + ·) 0

/-- Failure kinds of the Bill Rounder, from spec section 4.2 item 4. -/
inductive BillError where
  | nonFiniteInput : BillError
  | negativePayout : BillError
deriving DecidableEq, Repr

/-- Result of the Bill Rounder: the payable amount in dollars and the
denomination breakdown, denominations in cents. -/
structure BillResult where
  rounded : ℚ
  billBreakdown : List (ℕ × ℕ)
deriving DecidableEq, Repr

/-- Modelled from the spec: roundAndCalculateBills of
client/src/lib/billCalc, which is imported by the route file but is not
under src/.  Per spec section 4.2: reject NaN and the infinities with
NonFiniteInput and negative payouts with NegativePayout, round half-up
to cents, then decompose greedily over the fixed denomination set. -/
def roundAndCalculateBills : JsNum → Except BillError BillResult
  | JsNum.nan => Except.error BillError.nonFiniteInput
  | JsNum.inf => Except.error BillError.nonFiniteInput
  | JsNum.ninf => Except.error BillError.nonFiniteInput
  | JsNum.fin q =>
      if q < 0 then Except.error BillError.negativePayout
      else
        let cents := (roundHalfUpCents q).toNat
        Except.ok { rounded := (cents : ℚ) / 100,
                    billBreakdown := greedy denominationsCents cents }

/-- Modelled from the spec: calculatePayout of client/src/lib/utils,
which is imported by the route file but is not under src/.  Spec
sections 3 and 4.1: payout = hours * hourlyRate. -/
def calculatePayout (hours hourlyRate : JsNum) : JsNum :=
  JsNum.mul hours hourlyRate

/-- One entry of the request body partnerHours array. -/
structure PartnerHoursEntry where
  name : String
  hours : JsNum
deriving DecidableEq, Repr

/-- The request body of POST /api/distributions/calculate
(src/unnamed/part_001 line 100). -/
structure CalcRequest where
  partnerHours : List PartnerHoursEntry
  totalAmount : JsNum
  totalHours : JsNum
  hourlyRate : JsNum
deriving DecidableEq, Repr

/-- One element of the partnerPayouts array built by the route handler
(src/unnamed/part_001 lines 136-142). -/
structure PartnerPayout where
  name : String
  hours : JsNum
  payout : JsNum
  rounded : ℚ
  billBreakdown : List (ℕ × ℕ)
deriving DecidableEq, Repr

/-- The distributionData object returned by the route handler
(src/unnamed/part_001 lines 145-150).  It has exactly the four fields
of the source object literal. -/
structure DistributionData where
  totalAmount : JsNum
  totalHours : JsNum
  hourlyRate : JsNum
  partnerPayouts : List PartnerPayout
deriving DecidableEq, Repr

/-- The keys of the distributionData object literal returned by the
route handler (src/unnamed/part_001 lines 145-150), in source order. -/
def distributionDataKeys : List String :=
  ["totalAmount", "totalHours", "hourlyRate", "partnerPayouts"]

/-- The failure outcomes of the calculate-distribution route: the four
400 validation responses, plus the errors thrown inside the payout map
(which surface as 500 responses). -/
inductive CalcError where
  | emptyInput : CalcError
  | invalidTotalAmount : CalcError
  | invalidTotalHours : CalcError
  | invalidHourlyRate : CalcError
  | invalidPartnerHours : CalcError
  | invalidPayout (name : String) : CalcError
  | billFailed (e : BillError) : CalcError
deriving DecidableEq, Repr

/-- Classification of the error kinds per spec section 7: InvalidInput
covers the non-positive or non-finite numeric-input rejections. -/
def CalcError.isInvalidInput : CalcError → Bool
  | CalcError.invalidTotalAmount => true
  | CalcError.invalidTotalHours => true
  | CalcError.invalidHourlyRate => true
  | CalcError.invalidPartnerHours => true
  | _ => false

/-- Whitespace trim on a character list, both ends, mirroring the
JavaScript trim used by the source. -/
def trimChars (cs : List Char) : List Char :=
  ((cs.dropWhile Char.isWhitespace).reverse.dropWhile Char.isWhitespace).reverse

/-- Trim of a string, via trimChars. -/
def trimString (s : String) : String := String.mk (trimChars s.data)

/-- Modelled from the spec: partnerHoursSchema of the shared schema
module, which is imported by the route file but is not under src/.
Spec section 3 (PartnerHours): name non-empty after trimming, hours
finite and strictly positive. -/
def validPartnerEntry (p : PartnerHoursEntry) : Bool :=
  trimString p.name ≠ "" && p.hours.isFinite && JsNum.lt (JsNum.fin 0) p.hours

/-- Modelled from the spec: the whole-array schema check applied by the
route handler at src/unnamed/part_001 line 121. -/
def partnerHoursSchemaCheck (l : List PartnerHoursEntry) : Bool :=
  l.all validPartnerEntry

/-- The validation pattern value <= 0 || !isFinite(value) used by the
route handler at src/unnamed/part_001 lines 107, 111 and 115. -/
def jsInvalidPositive (x : JsNum) : Bool :=
  JsNum.le x (JsNum.fin 0) || !x.isFinite

/-- The per-partner payout map of the route handler
(src/unnamed/part_001 lines 127-143): compute the payout, throw when it
is non-finite or negative, round it and build the payout record. -/
def computePayouts (rate : JsNum) : List PartnerHoursEntry → Except CalcError (List PartnerPayout)
  | [] => Except.ok []
  | p :: rest =>
      if !(calculatePayout p.hours rate).isFinite
          || JsNum.lt (calculatePayout p.hours rate) (JsNum.fin 0) then
        Except.error (CalcError.invalidPayout p.name)
      else
        match roundAndCalculateBills (calculatePayout p.hours rate) with
        | Except.error e => Except.error (CalcError.billFailed e)
        | Except.ok r =>
            match computePayouts rate rest with
            | Except.error e => Except.error e
            | Except.ok tail =>
                Except.ok ({ name := p.name, hours := p.hours,
                             payout := calculatePayout p.hours rate,
                             rounded := r.rounded, billBreakdown := r.billBreakdown } :: tail)

/-- The calculate-distribution route handler (src/unnamed/part_001
lines 98-158): validation in source order, then the payout map, then
the distributionData object with its four fields. -/
def calculateDistribution (req : CalcRequest) : Except CalcError DistributionData :=
  if req.partnerHours.isEmpty then Except.error CalcError.emptyInput
  else if jsInvalidPositive req.totalAmount then Except.error CalcError.invalidTotalAmount
  else if jsInvalidPositive req.totalHours then Except.error CalcError.invalidTotalHours
  else if jsInvalidPositive req.hourlyRate then Except.error CalcError.invalidHourlyRate
  else if !partnerHoursSchemaCheck req.partnerHours then Except.error CalcError.invalidPartnerHours
  else
    match computePayouts req.hourlyRate req.partnerHours with
    | Except.error e => Except.error e
    | Except.ok pps =>
        Except.ok { totalAmount := req.totalAmount, totalHours := req.totalHours,
                    hourlyRate := req.hourlyRate, partnerPayouts := pps }

/-- Sum of the recorded (unrounded) payout values over a payout list. -/
def sumPayouts : List PartnerPayout → ℚ
  | [] => 0
  | p :: rest => jsToQ p.payout + sumPayouts rest

/-- Sum of the rounded amounts over a payout list, in dollars. -/
def sumRounded : List PartnerPayout → ℚ
  | [] => 0
  | p :: rest => p.rounded + sumRounded rest

/-- Sum of the partner hours values over a request entry list. -/
def hoursSum : List PartnerHoursEntry → ℚ
  | [] => 0
  | p :: rest => jsToQ p.hours + hoursSum rest

/-- The discrepancy a caller can compute from a returned
DistributionData: totalAmount minus the sum of the rounded payouts. -/
def discrepancy (d : DistributionData) : ℚ :=
  jsToQ d.totalAmount - sumRounded d.partnerPayouts

/-- Separator class of the line regex of extractPartnerHours
(src/update-project/src/index.css line 280): colon, ASCII hyphen-minus,
or the Unicode minus sign U+2212 that appears in the character class. -/
def isSep (c : Char) : Bool := c = ':' || c = '-' || c = '−'

/-- Value of a digit run as a natural number. -/
def digitsToNat (ds : List Char) : ℕ :=
  ds.foldl (fun n c => 10 * n + (c.toNat - '0'.toNat)) 0

/-- The numeric tail that the regex requires after a separator:
optional whitespace, one or more digits, then an optional dot followed
by one or more digits; trailing characters are ignored because the
regex is not anchored at the end of the line.  Returns the parseFloat
value of the captured digits as an exact rational. -/
def numAfter (cs : List Char) : Option ℚ :=
  let rest := cs.dropWhile Char.isWhitespace
  let ds := rest.takeWhile Char.isDigit
  if ds.isEmpty then none
  else
    match rest.drop ds.length with
    | '.' :: more =>
        let fs := more.takeWhile Char.isDigit
        if fs.isEmpty then some (digitsToNat ds : ℚ)
        else some ((digitsToNat ds : ℚ) + (digitsToNat fs : ℚ) / 10 ^ fs.length)
    | _ => some (digitsToNat ds : ℚ)

/-- Backtracking search of the lazy group of the regex
/^(.+?)[:−\x2d]\s*(\d+(?:\.\d+)?)/ : the shortest non-empty prefix that
is followed by a separator character whose tail parses as the numeric
part wins; when the tail fails the lazy group grows past the separator
and the search continues.  The accumulator holds the prefix read so
far, reversed. -/
def findMatch (pre : List Char) : List Char → Option (List Char × ℚ)
  | [] => none
  | c :: rest =>
      if pre ≠ [] && isSep c then
        match numAfter rest with
        | some h => some (pre.reverse, h)
        | none => findMatch (c :: pre) rest
      else findMatch (c :: pre) rest

/-- text.split of the newline character, on character lists: the exact
JavaScript split semantics, so an empty text yields one empty line and
a trailing newline yields a trailing empty line. -/
def splitLinesChars : List Char → List (List Char)
  | [] => [[]]
  | c :: rest =>
      if c = '\n' then [] :: splitLinesChars rest
      else
        match splitLinesChars rest with
        | [] => [[c]]
        | l :: ls => (c :: l) :: ls

/-- The common per-line step of extractPartnerHours
(src/update-project/src/index.css lines 276-288): trim the line, skip
it when empty, run the regex, trim the captured name, and require the
name to be non-empty (the truthiness test of the source).  The result
carries the name and the parsed hours; the positivity filter on hours
is applied separately. -/
def lineMatch (line : List Char) : Option (String × ℚ) :=
  let t := trimChars line
  if t.isEmpty then none
  else
    match findMatch [] t with
    | none => none
    | some (pre, h) =>
        let name := String.mk (trimChars pre)
        if name = "" then none else some (name, h)

/-- extractPartnerHours (src/update-project/src/index.css lines
271-292): split the text into lines, run the regex on each trimmed
line, and keep an entry exactly when the name is non-empty and the
parsed hours are strictly positive (the source also tests isNaN, which
never holds for a value produced by the digit regex). -/
def extractPartnerHours (text : String) : List (String × ℚ) :=
  (splitLinesChars text.data).filterMap fun line =>
    match lineMatch line with
    | none => none
    | some p => if 0 < p.2 then some p else none

/-- The parser contract exactly as the spec states it (section 6 and
claim C9): the ordered sequence of entries derived from the lines that
match the form name, separator, number, every non-matching line being
skipped — with no positivity condition on the number. -/
def claimExtractPartnerHours (text : String) : List (String × ℚ) :=
  (splitLinesChars text.data).filterMap lineMatch

/-- One candidate of the Gemini response body: its content parts, each
part optionally carrying a text field (src/api/partners.js lines
48-56 of the bundle). -/
structure GeminiCandidate where
  parts : List (Option String)
deriving DecidableEq, Repr

/-- The outcome of the fetch call inside analyzeImage, as seen by the
surrounding code: a thrown exception anywhere inside the try block, a
non-OK HTTP response (with the error message extracted from its body
by JSON.parse and the api_key redaction, abstracted here as an optional
string since the body is external data), or an OK response with its
parsed candidate list (an absent candidates field is the empty list). -/
inductive FetchOutcome where
  | throws : FetchOutcome
  | notOk (status : ℕ) (errorMessage : Option String) : FetchOutcome
  | ok (candidates : List GeminiCandidate) : FetchOutcome
deriving DecidableEq, Repr

/-- The environment analyzeImage runs in: the configured API key (the
empty string when the variable is unset) and the fetch outcome. -/
structure AnalyzeEnv where
  apiKey : String
  outcome : FetchOutcome
deriving DecidableEq, Repr

/-- The record analyzeImage resolves with: text : string | null and the
optional error string (src/api/partners.js line 71 of the bundle). -/
structure AnalyzeResult where
  text : Option String
  error : Option String
deriving DecidableEq, Repr

/-- analyzeImage (src/api/partners.js lines 71-242 of the bundle):
every branch of the source, in source order — missing key, non-OK
status with the three special cases 400, 403 and 429, empty candidate
list, empty joined text, success, and the catch-all for any exception
thrown inside the try block. -/
def analyzeImage (env : AnalyzeEnv) : AnalyzeResult :=
  if env.apiKey = "" then
    { text := none, error := some "API key missing. Please configure the Gemini API key." }
  else
    match env.outcome with
    | FetchOutcome.throws =>
        { text := none, error := some "An unexpected error occurred while processing the image." }
    | FetchOutcome.notOk status errorMessage =>
        if status = 400 then
          { text := none,
            error := some "Bad request to Gemini API. Check your API key permissions and image format." }
        else if status = 403 then
          { text := none,
            error := some "Authentication error. Your Gemini API key may be invalid or missing Vision API permissions." }
        else if status = 429 then
          { text := none,
            error := some "Gemini API quota exceeded. Please try again later or check your API key limits." }
        else
          { text := none,
            error := some ("API Error (" ++ toString status ++ "): "
              ++ errorMessage.getD "Failed to call Gemini API") }
    | FetchOutcome.ok candidates =>
        match candidates with
        | [] =>
            { text := none,
              error := some "No text extracted from the image. Try a clearer image or manual entry." }
        | c :: _ =>
            let extractedText :=
              String.intercalate "\n" ((c.parts.filterMap id).filter (fun s => s ≠ ""))
            if extractedText = "" then
              { text := none,
                error := some "No text extracted from the image. Try a clearer image or manual entry." }
            else { text := some extractedText, error := none }

theorem greedy_reconstruct_add_rem (ds : List ℕ) : ∀ r : ℕ,
    reconstruct (greedy ds r) + greedyRem ds r = r := by
  induction ds with
  | nil => intro r; simp [greedy, greedyRem, reconstruct]
  | cons d ds ih =>
      intro r
      by_cases hc : r / d = 0
      · simp only [greedy, greedyRem, hc, if_pos rfl]
        have := ih (r % d)
        have hd : d * (r / d) + r % d = r := Nat.div_add_mod r d
        rw [hc, Nat.mul_zero, Nat.zero_add] at hd
        rw [hd] at this
        calc reconstruct (greedy ds (r % d)) + greedyRem ds (r % d) = r % d := by
              rw [hd]; exact this
          _ = r := hd
      · simp only [greedy, greedyRem]
        rw [if_neg hc]
        have hrec : reconstruct ((d, r / d) :: greedy ds (r % d))
            = d * (r / d) + reconstruct (greedy ds (r % d)) := by
          simp [reconstruct]
        rw [hrec, Nat.add_assoc, ih (r % d), Nat.div_add_mod]

theorem greedyRem_denominations (r : ℕ) : greedyRem denominationsCents r = 0 := by
  simp [denominationsCents, greedyRem, Nat.mod_one]

theorem greedy_reconstruct_denominations (r : ℕ) :
    reconstruct (greedy denominationsCents r) = r := by
  have := greedy_reconstruct_add_rem denominationsCents r
  rw [greedyRem_denominations] at this
  simpa using this

theorem greedy_counts_pos (ds : List ℕ) : ∀ (r : ℕ) (p : ℕ × ℕ),
    p ∈ greedy ds r → 0 < p.2 := by
  induction ds with
  | nil => intro r p hp; simp [greedy] at hp
  | cons d ds ih =>
      intro r p hp
      by_cases hc : r / d = 0
      · simp only [greedy, hc, if_pos rfl] at hp
        exact ih (r % d) p hp
      · simp only [greedy] at hp
        rw [if_neg hc] at hp
        cases hp with
        | head => exact Nat.pos_of_ne_zero hc
        | tail _ h => exact ih (r % d) p h

theorem roundAndCalculateBills_ok (q : ℚ) (h : 0 ≤ q) :
    roundAndCalculateBills (JsNum.fin q) =
      Except.ok { rounded := (((roundHalfUpCents q).toNat : ℚ)) / 100,
                  billBreakdown := greedy denominationsCents (roundHalfUpCents q).toNat } := by
  simp [roundAndCalculateBills, not_lt.mpr h]

theorem roundHalfUpCents_nonneg (q : ℚ) (h : 0 ≤ q) : 0 ≤ roundHalfUpCents q := by
  unfold roundHalfUpCents
  rw [Int.floor_nonneg]
  positivity

theorem roundHalfUpCents_err (q : ℚ) : |(roundHalfUpCents q : ℚ) - q * 100| ≤ 1 / 2 := by
  unfold roundHalfUpCents
  have h1 : ((⌊q * 100 + 1 / 2⌋ : ℤ) : ℚ) ≤ q * 100 + 1 / 2 := Int.floor_le _
  have h2 : q * 100 + 1 / 2 < ((⌊q * 100 + 1 / 2⌋ : ℤ) : ℚ) + 1 := Int.lt_floor_add_one _
  rw [abs_le]
  constructor <;> linarith

theorem rounded_err (q : ℚ) (h : 0 ≤ q) :
    |q - (((roundHalfUpCents q).toNat : ℚ)) / 100| ≤ 1 / 200 := by
  have hnn := roundHalfUpCents_nonneg q h
  have hcast : (((roundHalfUpCents q).toNat : ℤ) : ℚ) = ((roundHalfUpCents q : ℤ) : ℚ) := by
    exact_mod_cast congrArg (fun z : ℤ => (z : ℚ)) (Int.toNat_of_nonneg hnn)
  have herr := roundHalfUpCents_err q
  rw [abs_le] at herr ⊢
  have hc : (((roundHalfUpCents q).toNat : ℕ) : ℚ) = ((roundHalfUpCents q : ℤ) : ℚ) := by
    push_cast at hcast ⊢
    exact hcast
  rw [hc]
  constructor <;> linarith

/-- C6: for every PartnerPayout produced by the Bill Rounder, summing
denomination times count over its billBreakdown reconstructs the
rounded amount exactly (the breakdown is in cents, the rounded amount
in dollars, so the reconstruction equals rounded times 100). -/
theorem billBreakdown_reconstructs_rounded (x : JsNum) (r : BillResult)
    (h : roundAndCalculateBills x = Except.ok r) :
    (reconstruct r.billBreakdown : ℚ) = r.rounded * 100 := by
  cases x with
  | nan => simp [roundAndCalculateBills] at h
  | inf => simp [roundAndCalculateBills] at h
  | ninf => simp [roundAndCalculateBills] at h
  | fin q =>
      by_cases hq : q < 0
      · simp [roundAndCalculateBills, hq] at h
      · rw [roundAndCalculateBills_ok q (not_lt.mp hq)] at h
        injection h with h
        subst h
        simp only [greedy_reconstruct_denominations]
        rw [div_mul_cancel₀]
        norm_num

/-- Witness for C6 at the input payout 1.00: the rounder yields one
dollar bill entry, and its reconstruction is 100 cents. -/
theorem billBreakdown_reconstructs_rounded_witness :
    roundAndCalculateBills (JsNum.fin 1)
        = Except.ok { rounded := 1, billBreakdown := [(100, 1)] } ∧
      (reconstruct [(100, 1)] : ℚ) = (1 : ℚ) * 100 := by
  have h100 : roundHalfUpCents 1 = 100 := by norm_num [roundHalfUpCents]
  have hok : roundAndCalculateBills (JsNum.fin 1)
      = Except.ok { rounded := 1, billBreakdown := [(100, 1)] } := by
    rw [roundAndCalculateBills_ok 1 (by norm_num), h100]
    have ht : (100 : ℤ).toNat = 100 := rfl
    rw [ht]
    have hg : greedy denominationsCents 100 = [(100, 1)] := by decide
    rw [hg]
    norm_num
  exact ⟨hok, billBreakdown_reconstructs_rounded (JsNum.fin 1) _ hok⟩

/-- C7: for every payout p at least 0, the Bill Rounder terminates (its
greedy walk is structural recursion over the finite denomination list,
mirroring the bounded loop of the source) with remaining equal to zero,
and every recorded denomination count is positive, in particular a
non-negative integer. -/
theorem billRounder_terminates_rem_zero (q : ℚ) (h : 0 ≤ q) :
    ∃ r : BillResult, roundAndCalculateBills (JsNum.fin q) = Except.ok r ∧
      greedyRem denominationsCents (roundHalfUpCents q).toNat = 0 ∧
      r.billBreakdown.all (fun p => decide (0 < p.2)) = true := by
  refine ⟨_, roundAndCalculateBills_ok q h, greedyRem_denominations _, ?_⟩
  rw [List.all_eq_true]
  intro p hp
  exact decide_eq_true (greedy_counts_pos denominationsCents _ p hp)

/-- Witness for C7 at the payout 2.50: rounding gives 250 cents, the
walk leaves remainder zero and records only positive counts. -/
theorem billRounder_terminates_rem_zero_witness :
    (0 : ℚ) ≤ 5 / 2 ∧
      ∃ r : BillResult, roundAndCalculateBills (JsNum.fin (5 / 2)) = Except.ok r ∧
        greedyRem denominationsCents (roundHalfUpCents (5 / 2)).toNat = 0 ∧
        r.billBreakdown.all (fun p => decide (0 < p.2)) = true :=
  ⟨by norm_num, billRounder_terminates_rem_zero (5 / 2) (by norm_num)⟩

/-- The payout record the route handler builds for one partner when the
hourly rate is the finite value R: payout = hours * R, rounded and
decomposed by the Bill Rounder. -/
def payoutOf (R : ℚ) (p : PartnerHoursEntry) : PartnerPayout :=
  { name := p.name,
    hours := p.hours,
    payout := JsNum.fin (jsToQ p.hours * R),
    rounded := (((roundHalfUpCents (jsToQ p.hours * R)).toNat : ℕ) : ℚ) / 100,
    billBreakdown := greedy denominationsCents (roundHalfUpCents (jsToQ p.hours * R)).toNat }

theorem computePayouts_ok (R : ℚ) (hR : 0 < R) :
    ∀ l : List PartnerHoursEntry,
      (∀ p ∈ l, ∃ h : ℚ, p.hours = JsNum.fin h ∧ 0 < h) →
      computePayouts (JsNum.fin R) l = Except.ok (l.map (payoutOf R)) := by
  intro l
  induction l with
  | nil => intro _; rfl
  | cons p l ih =>
      intro hl
      obtain ⟨h, hh, hpos⟩ := hl p (List.mem_cons_self p l)
      have hq : 0 < h * R := mul_pos hpos hR
      have hpay : calculatePayout p.hours (JsNum.fin R) = JsNum.fin (h * R) := by
        rw [hh]; rfl
      have hcond : (!(JsNum.fin (h * R)).isFinite
          || JsNum.lt (JsNum.fin (h * R)) (JsNum.fin 0)) = false := by
        simp [JsNum.isFinite, JsNum.lt, not_lt.mpr hq.le]
      have hrec := ih (fun q hq => hl q (List.mem_cons_of_mem p hq))
      simp only [computePayouts, hpay, hcond, Bool.false_eq_true, if_false,
        roundAndCalculateBills_ok (h * R) hq.le, hrec, List.map_cons]
      have hjs : jsToQ p.hours = h := by rw [hh]; rfl
      simp [payoutOf, hjs]

theorem sumPayouts_map (R : ℚ) (l : List PartnerHoursEntry) :
    sumPayouts (l.map (payoutOf R)) = hoursSum l * R := by
  induction l with
  | nil => simp [sumPayouts, hoursSum]
  | cons p l ih =>
      simp only [List.map_cons, sumPayouts, hoursSum, ih, payoutOf, jsToQ]
      ring

theorem sumRounded_map_bound (R : ℚ) (hR : 0 < R) :
    ∀ l : List PartnerHoursEntry,
      (∀ p ∈ l, ∃ h : ℚ, p.hours = JsNum.fin h ∧ 0 < h) →
      |hoursSum l * R - sumRounded (l.map (payoutOf R))| ≤ (l.length : ℚ) * (1 / 200) := by
  intro l
  induction l with
  | nil => intro _; simp [hoursSum, sumRounded]
  | cons p l ih =>
      intro hl
      obtain ⟨h, hh, hpos⟩ := hl p (List.mem_cons_self p l)
      have hq : 0 ≤ jsToQ p.hours * R := by
        rw [hh]
        show 0 ≤ h * R
        exact (mul_pos hpos hR).le
      have hhead := rounded_err (jsToQ p.hours * R) hq
      have htail := ih (fun q hq => hl q (List.mem_cons_of_mem p hq))
      simp only [List.map_cons, sumRounded, hoursSum, payoutOf, List.length_cons]
      calc |(jsToQ p.hours + hoursSum l) * R -
            ((((roundHalfUpCents (jsToQ p.hours * R)).toNat : ℕ) : ℚ) / 100
              + sumRounded (l.map (payoutOf R)))|
          = |(jsToQ p.hours * R - (((roundHalfUpCents (jsToQ p.hours * R)).toNat : ℕ) : ℚ) / 100)
              + (hoursSum l * R - sumRounded (l.map (payoutOf R)))| := by
            congr 1
            ring
        _ ≤ |jsToQ p.hours * R - (((roundHalfUpCents (jsToQ p.hours * R)).toNat : ℕ) : ℚ) / 100|
              + |hoursSum l * R - sumRounded (l.map (payoutOf R))| := abs_add _ _
        _ ≤ 1 / 200 + (l.length : ℚ) * (1 / 200) := add_le_add hhead htail
        _ = ((l.length + 1 : ℕ) : ℚ) * (1 / 200) := by
            push_cast
            ring

theorem jsInvalidPositive_fin_false (A : ℚ) (h : 0 < A) :
    jsInvalidPositive (JsNum.fin A) = false := by
  simp [jsInvalidPositive, JsNum.le, JsNum.isFinite, not_le, h]

theorem calculateDistribution_ok_inv (req : CalcRequest) (d : DistributionData)
    (h : calculateDistribution req = Except.ok d) :
    computePayouts req.hourlyRate req.partnerHours = Except.ok d.partnerPayouts ∧
      d.totalAmount = req.totalAmount ∧ d.totalHours = req.totalHours ∧
      d.hourlyRate = req.hourlyRate := by
  unfold calculateDistribution at h
  split_ifs at h
  cases hm : computePayouts req.hourlyRate req.partnerHours with
  | error e => rw [hm] at h; simp at h
  | ok pps =>
      rw [hm] at h
      simp only [Except.ok.injEq] at h
      subst h
      exact ⟨rfl, rfl, rfl, rfl⟩

theorem calculateDistribution_ok (req : CalcRequest) (A H R : ℚ)
    (hA : req.totalAmount = JsNum.fin A) (hH : req.totalHours = JsNum.fin H)
    (hR : req.hourlyRate = JsNum.fin R)
    (hApos : 0 < A) (hHpos : 0 < H) (hRpos : 0 < R)
    (hne : req.partnerHours ≠ [])
    (hhrs : ∀ p ∈ req.partnerHours, ∃ h : ℚ, p.hours = JsNum.fin h ∧ 0 < h)
    (hnames : ∀ p ∈ req.partnerHours, trimString p.name ≠ "") :
    calculateDistribution req =
      Except.ok { totalAmount := req.totalAmount, totalHours := req.totalHours,
                  hourlyRate := req.hourlyRate,
                  partnerPayouts := req.partnerHours.map (payoutOf R) } := by
  have hempty : req.partnerHours.isEmpty = false := by
    cases hl : req.partnerHours with
    | nil => exact absurd hl hne
    | cons a l => rfl
  have hschema : partnerHoursSchemaCheck req.partnerHours = true := by
    rw [partnerHoursSchemaCheck, List.all_eq_true]
    intro p hp
    obtain ⟨hq, hh, hpos⟩ := hhrs p hp
    simp [validPartnerEntry, hh, JsNum.isFinite, JsNum.lt, hpos, hnames p hp]
  have hmap := computePayouts_ok R hRpos req.partnerHours hhrs
  unfold calculateDistribution
  rw [hA, hH, hR] at *
  simp only [hempty, Bool.false_eq_true, if_false,
    jsInvalidPositive_fin_false A hApos, jsInvalidPositive_fin_false H hHpos,
    jsInvalidPositive_fin_false R hRpos, hschema, Bool.not_true, hmap]

theorem computePayouts_formula (rate : JsNum) :
    ∀ (l : List PartnerHoursEntry) (pps : List PartnerPayout),
      computePayouts rate l = Except.ok pps →
      ∀ pp ∈ pps, pp.payout = JsNum.mul pp.hours rate := by
  intro l
  induction l with
  | nil =>
      intro pps h pp hpp
      simp only [computePayouts, Except.ok.injEq] at h
      subst h
      simp at hpp
  | cons p l ih =>
      intro pps h pp hpp
      unfold computePayouts at h
      split at h
      · exact absurd h (by simp)
      · split at h
        · exact absurd h (by simp)
        · split at h
          · exact absurd h (by simp)
          · rename_i tail htail
            simp only [Except.ok.injEq] at h
            subst h
            cases hpp with
            | head => rfl
            | tail _ hmem => exact ih tail htail pp hmem

/-- The consistent scenario of spec section 8: 100 dollars, partner A
with 10 hours, partner B with 30 hours, hourly rate 2.50 supplied
consistently (100 = 2.5 * 40). -/
def scenarioReq : CalcRequest :=
  { partnerHours := [{ name := "A", hours := JsNum.fin 10 },
                     { name := "B", hours := JsNum.fin 30 }],
    totalAmount := JsNum.fin 100, totalHours := JsNum.fin 40,
    hourlyRate := JsNum.fin (5 / 2) }

/-- The distribution the route handler returns on scenarioReq. -/
def scenarioDist : DistributionData :=
  { totalAmount := JsNum.fin 100, totalHours := JsNum.fin 40,
    hourlyRate := JsNum.fin (5 / 2),
    partnerPayouts :=
      [{ name := "A", hours := JsNum.fin 10, payout := JsNum.fin 25, rounded := 25,
         billBreakdown := [(2000, 1), (500, 1)] },
       { name := "B", hours := JsNum.fin 30, payout := JsNum.fin 75, rounded := 75,
         billBreakdown := [(2000, 3), (1000, 1), (500, 1)] }] }

theorem scenario_hours : ∀ p ∈ scenarioReq.partnerHours,
    ∃ h : ℚ, p.hours = JsNum.fin h ∧ 0 < h := by
  intro p hp
  simp only [scenarioReq, List.mem_cons, List.not_mem_nil, or_false] at hp
  rcases hp with rfl | rfl
  · exact ⟨10, rfl, by norm_num⟩
  · exact ⟨30, rfl, by norm_num⟩

theorem scenario_eval : calculateDistribution scenarioReq = Except.ok scenarioDist := by
  have h25 : roundHalfUpCents 25 = 2500 := by norm_num [roundHalfUpCents]
  have h75 : roundHalfUpCents 75 = 7500 := by norm_num [roundHalfUpCents]
  have hA : payoutOf (5 / 2) { name := "A", hours := JsNum.fin 10 }
      = { name := "A", hours := JsNum.fin 10, payout := JsNum.fin 25, rounded := 25,
          billBreakdown := [(2000, 1), (500, 1)] } := by
    unfold payoutOf
    have hq : jsToQ (JsNum.fin 10) * (5 / 2) = 25 := by norm_num [jsToQ]
    rw [hq, h25]
    have hg : greedy denominationsCents (2500 : ℤ).toNat = [(2000, 1), (500, 1)] := by decide
    rw [hg]
    have ht : (2500 : ℤ).toNat = 2500 := rfl
    rw [ht]
    norm_num
  have hB : payoutOf (5 / 2) { name := "B", hours := JsNum.fin 30 }
      = { name := "B", hours := JsNum.fin 30, payout := JsNum.fin 75, rounded := 75,
          billBreakdown := [(2000, 3), (1000, 1), (500, 1)] } := by
    unfold payoutOf
    have hq : jsToQ (JsNum.fin 30) * (5 / 2) = 75 := by norm_num [jsToQ]
    rw [hq, h75]
    have hg : greedy denominationsCents (7500 : ℤ).toNat = [(2000, 3), (1000, 1), (500, 1)] := by
      decide
    rw [hg]
    have ht : (7500 : ℤ).toNat = 7500 := rfl
    rw [ht]
    norm_num
  have hmain := calculateDistribution_ok scenarioReq 100 40 (5 / 2) rfl rfl rfl
    (by norm_num) (by norm_num) (by norm_num) (by simp [scenarioReq]) scenario_hours
    (by intro p hp
        simp only [scenarioReq, List.mem_cons, List.not_mem_nil, or_false] at hp
        rcases hp with rfl | rfl <;> decide)
  rw [hmain]
  show _ = Except.ok scenarioDist
  unfold scenarioReq scenarioDist
  simp only [List.map_cons, List.map_nil, hA, hB]

/-- C4 counterexample: negative infinity is a negative input payout (it
compares below zero) and also non-finite; the Bill Rounder answers
NonFiniteInput there, so it does not fail with NegativePayout for every
negative input payout as the claim requires. -/
theorem billRounder_error_kinds_cex :
    JsNum.lt JsNum.ninf (JsNum.fin 0) = true ∧
      roundAndCalculateBills JsNum.ninf = Except.error BillError.nonFiniteInput ∧
      roundAndCalculateBills JsNum.ninf ≠ Except.error BillError.negativePayout := by
  refine ⟨rfl, rfl, ?_⟩
  simp [roundAndCalculateBills]

/-- C4 amended: the Bill Rounder fails with NonFiniteInput for NaN and
for both infinities (negative infinity included, although it is also
negative), and with NegativePayout for every finite negative payout. -/
theorem billRounder_error_kinds (x : JsNum) (q : ℚ) :
    (x.isFinite = false → roundAndCalculateBills x = Except.error BillError.nonFiniteInput) ∧
      (q < 0 → roundAndCalculateBills (JsNum.fin q) = Except.error BillError.negativePayout) := by
  constructor
  · intro h
    cases x with
    | nan => rfl
    | inf => rfl
    | ninf => rfl
    | fin a => simp [JsNum.isFinite] at h
  · intro h
    simp [roundAndCalculateBills, h]

/-- Witness for the amended C4 at NaN and at the finite payout -1. -/
theorem billRounder_error_kinds_witness :
    roundAndCalculateBills JsNum.nan = Except.error BillError.nonFiniteInput ∧
      roundAndCalculateBills (JsNum.fin (-1)) = Except.error BillError.negativePayout :=
  ⟨(billRounder_error_kinds JsNum.nan (-1)).1 rfl,
   (billRounder_error_kinds JsNum.nan (-1)).2 (by norm_num)⟩

theorem validPartnerEntry_false_of_bad (p : PartnerHoursEntry)
    (h : jsInvalidPositive p.hours = true) : validPartnerEntry p = false := by
  cases hh : p.hours with
  | nan => simp [validPartnerEntry, JsNum.isFinite, hh]
  | inf => simp [validPartnerEntry, JsNum.isFinite, hh]
  | ninf => simp [validPartnerEntry, JsNum.isFinite, hh]
  | fin q =>
      rw [hh] at h
      simp only [jsInvalidPositive, JsNum.le, JsNum.isFinite, Bool.not_true, Bool.or_false,
        decide_eq_true_eq] at h
      simp [validPartnerEntry, JsNum.lt, hh, not_lt.mpr h]

/-- A request with an empty partner list and a non-positive total
amount: both failure conditions of claim C3 hold at once. -/
def emptyZeroReq : CalcRequest :=
  { partnerHours := [], totalAmount := JsNum.fin 0,
    totalHours := JsNum.fin 1, hourlyRate := JsNum.fin 1 }

/-- A request whose only partner has zero hours, with the three numeric
fields valid. -/
def zeroHoursReq : CalcRequest :=
  { partnerHours := [{ name := "A", hours := JsNum.fin 0 }],
    totalAmount := JsNum.fin 100, totalHours := JsNum.fin 1,
    hourlyRate := JsNum.fin 1 }

/-- C3 counterexample: on a request with an empty partner list and
totalAmount 0 the claim requires an InvalidInput failure (totalAmount
is non-positive), but the route handler checks emptiness first and
answers EmptyInput, which is not classified InvalidInput. -/
theorem validation_error_kinds_cex :
    JsNum.le emptyZeroReq.totalAmount (JsNum.fin 0) = true ∧
      calculateDistribution emptyZeroReq = Except.error CalcError.emptyInput ∧
      CalcError.emptyInput.isInvalidInput = false := by
  refine ⟨?_, ?_, rfl⟩
  · show JsNum.le (JsNum.fin 0) (JsNum.fin 0) = true
    simp [JsNum.le]
  · rfl

/-- C3 amended: the route handler rejects, producing no Distribution,
whenever the partner list is empty or totalAmount, totalHours or any
partner hours value is non-positive or non-finite; the empty-list check
runs first, so an empty list yields EmptyInput even when numeric inputs
are also invalid, and for a non-empty list the failure is classified
InvalidInput. -/
theorem validation_rejects (req : CalcRequest)
    (h : req.partnerHours = [] ∨
         jsInvalidPositive req.totalAmount = true ∨
         jsInvalidPositive req.totalHours = true ∨
         ∃ p ∈ req.partnerHours, jsInvalidPositive p.hours = true) :
    ∃ e, calculateDistribution req = Except.error e ∧
      (if req.partnerHours = [] then e = CalcError.emptyInput
       else e.isInvalidInput = true) := by
  by_cases hemp : req.partnerHours = []
  · refine ⟨CalcError.emptyInput, ?_, by rw [if_pos hemp]⟩
    have hb : req.partnerHours.isEmpty = true := by rw [hemp]; rfl
    simp [calculateDistribution, hb]
  · have hne : req.partnerHours.isEmpty = false := by
      cases hl : req.partnerHours with
      | nil => exact absurd hl hemp
      | cons a l => rfl
    by_cases ha : jsInvalidPositive req.totalAmount = true
    · exact ⟨CalcError.invalidTotalAmount,
        by simp [calculateDistribution, hne, ha], by rw [if_neg hemp]; rfl⟩
    · have ha' : jsInvalidPositive req.totalAmount = false := Bool.eq_false_iff.mpr ha
      by_cases hth : jsInvalidPositive req.totalHours = true
      · exact ⟨CalcError.invalidTotalHours,
          by simp [calculateDistribution, hne, ha', hth], by rw [if_neg hemp]; rfl⟩
      · have hth' : jsInvalidPositive req.totalHours = false := Bool.eq_false_iff.mpr hth
        by_cases hr : jsInvalidPositive req.hourlyRate = true
        · exact ⟨CalcError.invalidHourlyRate,
            by simp [calculateDistribution, hne, ha', hth', hr], by rw [if_neg hemp]; rfl⟩
        · have hr' : jsInvalidPositive req.hourlyRate = false := Bool.eq_false_iff.mpr hr
          obtain ⟨p, hp, hbad⟩ : ∃ p ∈ req.partnerHours, jsInvalidPositive p.hours = true := by
            rcases h with h | h | h | h
            · exact absurd h hemp
            · exact absurd h ha
            · exact absurd h hth
            · exact h
          have hschema : partnerHoursSchemaCheck req.partnerHours = false := by
            rw [Bool.eq_false_iff]
            intro hall
            rw [partnerHoursSchemaCheck, List.all_eq_true] at hall
            have hv := hall p hp
            rw [validPartnerEntry_false_of_bad p hbad] at hv
            exact absurd hv (by simp)
          exact ⟨CalcError.invalidPartnerHours,
            by simp [calculateDistribution, hne, ha', hth', hr', hschema],
            by rw [if_neg hemp]; rfl⟩

/-- Witness for the amended C3 at the two concrete requests: the
empty-list request fails with EmptyInput even though its totalAmount is
also invalid, and the zero-hours request fails with an
InvalidInput-classified error. -/
theorem validation_rejects_witness :
    (∃ e, calculateDistribution emptyZeroReq = Except.error e ∧
        (if emptyZeroReq.partnerHours = [] then e = CalcError.emptyInput
         else e.isInvalidInput = true)) ∧
      (∃ e, calculateDistribution zeroHoursReq = Except.error e ∧
        (if zeroHoursReq.partnerHours = [] then e = CalcError.emptyInput
         else e.isInvalidInput = true)) :=
  ⟨validation_rejects emptyZeroReq (Or.inl rfl),
   validation_rejects zeroHoursReq
     (Or.inr (Or.inr (Or.inr ⟨{ name := "A", hours := JsNum.fin 0 },
       List.mem_cons_self _ _, by simp [jsInvalidPositive, JsNum.le]⟩)))⟩

/-- A request the validation accepts although the supplied hourlyRate
is inconsistent with totalAmount: 100 dollars, one partner with 1 hour,
totalHours 1, hourlyRate 1. -/
def inconsistentReq : CalcRequest :=
  { partnerHours := [{ name := "A", hours := JsNum.fin 1 }],
    totalAmount := JsNum.fin 100, totalHours := JsNum.fin 1,
    hourlyRate := JsNum.fin 1 }

/-- The distribution the route handler returns on inconsistentReq: the
single payout is 1 dollar while totalAmount is 100. -/
def inconsistentDist : DistributionData :=
  { totalAmount := JsNum.fin 100, totalHours := JsNum.fin 1,
    hourlyRate := JsNum.fin 1,
    partnerPayouts :=
      [{ name := "A", hours := JsNum.fin 1, payout := JsNum.fin 1, rounded := 1,
         billBreakdown := [(100, 1)] }] }

theorem inconsistent_eval :
    calculateDistribution inconsistentReq = Except.ok inconsistentDist := by
  have h1 : roundHalfUpCents 1 = 100 := by norm_num [roundHalfUpCents]
  have hA : payoutOf 1 { name := "A", hours := JsNum.fin 1 }
      = { name := "A", hours := JsNum.fin 1, payout := JsNum.fin 1, rounded := 1,
          billBreakdown := [(100, 1)] } := by
    unfold payoutOf
    have hq : jsToQ (JsNum.fin 1) * 1 = 1 := by norm_num [jsToQ]
    rw [hq, h1]
    have hg : greedy denominationsCents (100 : ℤ).toNat = [(100, 1)] := by decide
    rw [hg]
    have ht : (100 : ℤ).toNat = 100 := rfl
    rw [ht]
    norm_num
  have hmain := calculateDistribution_ok inconsistentReq 100 1 1 rfl rfl rfl
    (by norm_num) (by norm_num) (by norm_num) (by simp [inconsistentReq])
    (by intro p hp
        simp only [inconsistentReq, List.mem_cons, List.not_mem_nil, or_false] at hp
        subst hp
        exact ⟨1, rfl, by norm_num⟩)
    (by intro p hp
        simp only [inconsistentReq, List.mem_cons, List.not_mem_nil, or_false] at hp
        subst hp
        decide)
  rw [hmain]
  unfold inconsistentReq inconsistentDist
  simp only [List.map_cons, List.map_nil, hA]

/-- C2 counterexample: the validation accepts inconsistentReq (all
numeric fields positive and finite, non-empty partner list with
positive hours), yet the sum of payouts is 1 while totalAmount is 100,
far outside the 1e-9 relative tolerance. -/
theorem payoutSum_matches_total_cex :
    calculateDistribution inconsistentReq = Except.ok inconsistentDist ∧
      sumPayouts inconsistentDist.partnerPayouts = 1 ∧
      ¬ |sumPayouts inconsistentDist.partnerPayouts - jsToQ inconsistentReq.totalAmount|
          ≤ 1 / 1000000000 * |jsToQ inconsistentReq.totalAmount| := by
  refine ⟨inconsistent_eval, ?_, ?_⟩
  · show jsToQ (JsNum.fin 1) + sumPayouts [] = 1
    simp [sumPayouts, jsToQ]
  · show ¬ |sumPayouts _ - jsToQ (JsNum.fin 100)| ≤ 1 / 1000000000 * |jsToQ (JsNum.fin 100)|
    have hs : sumPayouts inconsistentDist.partnerPayouts = 1 := by
      show jsToQ (JsNum.fin 1) + sumPayouts [] = 1
      simp [sumPayouts, jsToQ]
    rw [hs]
    show ¬ |(1 : ℚ) - 100| ≤ 1 / 1000000000 * |(100 : ℚ)|
    rw [not_le]
    rw [show |(1 : ℚ) - 100| = 99 by norm_num [abs_of_nonpos], show |(100 : ℚ)| = 100 from abs_of_pos (by norm_num)]
    norm_num

/-- C2 amended: the route handler does not check that hourlyRate is
consistent with totalAmount, so the payout sum can differ arbitrarily
from totalAmount; when the caller supplies a consistent rate
(totalAmount = hourlyRate times the sum of partner hours), the sum of
the unrounded payouts equals totalAmount exactly in the exact-rational
model, in particular within the 1e-9 relative tolerance. -/
theorem payoutSum_matches_total (req : CalcRequest) (A H R : ℚ)
    (hA : req.totalAmount = JsNum.fin A) (hH : req.totalHours = JsNum.fin H)
    (hR : req.hourlyRate = JsNum.fin R)
    (hApos : 0 < A) (hHpos : 0 < H) (hRpos : 0 < R)
    (hne : req.partnerHours ≠ [])
    (hhrs : ∀ p ∈ req.partnerHours, ∃ h : ℚ, p.hours = JsNum.fin h ∧ 0 < h)
    (hnames : ∀ p ∈ req.partnerHours, trimString p.name ≠ "")
    (hcons : A = R * hoursSum req.partnerHours) :
    ∃ d, calculateDistribution req = Except.ok d ∧
      sumPayouts d.partnerPayouts = A ∧
      |sumPayouts d.partnerPayouts - A| ≤ 1 / 1000000000 * |A| := by
  refine ⟨_, calculateDistribution_ok req A H R hA hH hR hApos hHpos hRpos hne hhrs hnames, ?_, ?_⟩
  · show sumPayouts (req.partnerHours.map (payoutOf R)) = A
    rw [sumPayouts_map, hcons, mul_comm]
  · show |sumPayouts (req.partnerHours.map (payoutOf R)) - A| ≤ 1 / 1000000000 * |A|
    rw [sumPayouts_map, hcons, mul_comm R (hoursSum req.partnerHours)]
    simp only [sub_self, abs_zero]
    positivity

/-- Witness for the amended C2 at the consistent scenario request. -/
theorem payoutSum_matches_total_witness :
    ∃ d, calculateDistribution scenarioReq = Except.ok d ∧
      sumPayouts d.partnerPayouts = 100 ∧
      |sumPayouts d.partnerPayouts - 100| ≤ 1 / 1000000000 * |(100 : ℚ)| :=
  payoutSum_matches_total scenarioReq 100 40 (5 / 2) rfl rfl rfl
    (by norm_num) (by norm_num) (by norm_num) (by simp [scenarioReq]) scenario_hours
    (by intro p hp
        simp only [scenarioReq, List.mem_cons, List.not_mem_nil, or_false] at hp
        rcases hp with rfl | rfl <;> decide)
    (by show (100 : ℚ) = 5 / 2 * (jsToQ (JsNum.fin 10) + (jsToQ (JsNum.fin 30) + hoursSum []))
        simp [hoursSum, jsToQ]
        norm_num)

/-- C8 counterexample: on the accepted but inconsistent request the
rounded payouts sum to 1 dollar while totalAmount is 100, so the
difference 99 exceeds the claimed bound numPartners times half the
smallest denomination (here 1 times 0.005), and the returned record
carries no residual field (see distributionDataKeys). -/
theorem roundedSum_bound_cex :
    calculateDistribution inconsistentReq = Except.ok inconsistentDist ∧
      ¬ |jsToQ inconsistentReq.totalAmount - sumRounded inconsistentDist.partnerPayouts|
          ≤ (inconsistentReq.partnerHours.length : ℚ) * (1 / 100) / 2 := by
  refine ⟨inconsistent_eval, ?_⟩
  have hs : sumRounded inconsistentDist.partnerPayouts = 1 := by
    show (1 : ℚ) + sumRounded [] = 1
    simp [sumRounded]
  rw [hs]
  show ¬ |jsToQ (JsNum.fin 100) - 1| ≤ ((1 : ℕ) : ℚ) * (1 / 100) / 2
  rw [not_le]
  show ((1 : ℕ) : ℚ) * (1 / 100) / 2 < |(100 : ℚ) - 1|
  rw [show |(100 : ℚ) - 1| = 99 by norm_num [abs_of_nonneg]]
  norm_num

/-- C8 amended: when the supplied hourlyRate is consistent with
totalAmount (totalAmount = hourlyRate times the sum of partner hours),
the rounded payouts sum to totalAmount within numPartners times half
the smallest denomination (0.01 dollars); the residual is not carried
as its own field of the result, but totalAmount and every rounded
amount are, so the caller can compute it (see discrepancy). -/
theorem roundedSum_bound (req : CalcRequest) (A H R : ℚ)
    (hA : req.totalAmount = JsNum.fin A) (hH : req.totalHours = JsNum.fin H)
    (hR : req.hourlyRate = JsNum.fin R)
    (hApos : 0 < A) (hHpos : 0 < H) (hRpos : 0 < R)
    (hne : req.partnerHours ≠ [])
    (hhrs : ∀ p ∈ req.partnerHours, ∃ h : ℚ, p.hours = JsNum.fin h ∧ 0 < h)
    (hnames : ∀ p ∈ req.partnerHours, trimString p.name ≠ "")
    (hcons : A = R * hoursSum req.partnerHours) :
    ∃ d, calculateDistribution req = Except.ok d ∧
      |A - sumRounded d.partnerPayouts|
        ≤ (req.partnerHours.length : ℚ) * (1 / 100) / 2 := by
  refine ⟨_, calculateDistribution_ok req A H R hA hH hR hApos hHpos hRpos hne hhrs hnames, ?_⟩
  show |A - sumRounded (req.partnerHours.map (payoutOf R))|
      ≤ (req.partnerHours.length : ℚ) * (1 / 100) / 2
  have hb := sumRounded_map_bound R hRpos req.partnerHours hhrs
  rw [hcons, mul_comm R (hoursSum req.partnerHours)]
  calc |hoursSum req.partnerHours * R - sumRounded (req.partnerHours.map (payoutOf R))|
      ≤ (req.partnerHours.length : ℚ) * (1 / 200) := hb
    _ = (req.partnerHours.length : ℚ) * (1 / 100) / 2 := by ring

/-- Witness for the amended C8 at the consistent scenario request,
where the two rounded payouts 25 and 75 sum to the full 100 dollars. -/
theorem roundedSum_bound_witness :
    ∃ d, calculateDistribution scenarioReq = Except.ok d ∧
      |(100 : ℚ) - sumRounded d.partnerPayouts|
        ≤ (scenarioReq.partnerHours.length : ℚ) * (1 / 100) / 2 :=
  roundedSum_bound scenarioReq 100 40 (5 / 2) rfl rfl rfl
    (by norm_num) (by norm_num) (by norm_num) (by simp [scenarioReq]) scenario_hours
    (by intro p hp
        simp only [scenarioReq, List.mem_cons, List.not_mem_nil, or_false] at hp
        rcases hp with rfl | rfl <;> decide)
    (by show (100 : ℚ) = 5 / 2 * (jsToQ (JsNum.fin 10) + (jsToQ (JsNum.fin 30) + hoursSum []))
        simp [hoursSum, jsToQ]
        norm_num)

/-- C1 counterexample: the distributionData object the route handler
returns has exactly the keys totalAmount, totalHours, hourlyRate and
partnerPayouts; no discrepancy field is among them, so the discrepancy
totalAmount minus the sum of rounded payouts is not included in the
result as a field. -/
theorem discrepancy_field_cex : "discrepancy" ∉ distributionDataKeys := by
  decide

/-- C1 amended: the Distribution result does not expose the discrepancy
as its own field; it does carry the unchanged totalAmount and every
rounded payout, so the caller can compute the discrepancy
totalAmount - sum(rounded) from the returned record alone. -/
theorem discrepancy_computable (req : CalcRequest) (d : DistributionData)
    (h : calculateDistribution req = Except.ok d) :
    d.totalAmount = req.totalAmount ∧
      discrepancy d = jsToQ req.totalAmount - sumRounded d.partnerPayouts := by
  obtain ⟨-, hA, -, -⟩ := calculateDistribution_ok_inv req d h
  exact ⟨hA, by rw [discrepancy, hA]⟩

/-- Witness for the amended C1 at the scenario request. -/
theorem discrepancy_computable_witness :
    scenarioDist.totalAmount = scenarioReq.totalAmount ∧
      discrepancy scenarioDist
        = jsToQ scenarioReq.totalAmount - sumRounded scenarioDist.partnerPayouts :=
  discrepancy_computable scenarioReq scenarioDist scenario_eval

/-- C5: for every partner record of a computed Distribution, the
recorded (unrounded) payout equals hours times hourlyRate under the
exact JavaScript multiplication model; the value is passed to the Bill
Rounder unmodified, with no truncation before rounding. -/
theorem partnerPayout_formula (req : CalcRequest) (d : DistributionData) (pp : PartnerPayout)
    (h : calculateDistribution req = Except.ok d) (hpp : pp ∈ d.partnerPayouts) :
    pp.payout = JsNum.mul pp.hours req.hourlyRate := by
  obtain ⟨hm, -, -, -⟩ := calculateDistribution_ok_inv req d h
  exact computePayouts_formula req.hourlyRate req.partnerHours d.partnerPayouts hm pp hpp

/-- Witness for C5: partner A of the scenario distribution has payout
25, which is 10 hours times the 2.50 rate. -/
theorem partnerPayout_formula_witness :
    ({ name := "A", hours := JsNum.fin 10, payout := JsNum.fin 25, rounded := 25,
       billBreakdown := [(2000, 1), (500, 1)] } : PartnerPayout).payout
      = JsNum.mul (JsNum.fin 10) (JsNum.fin (5 / 2)) :=
  partnerPayout_formula scenarioReq scenarioDist _ scenario_eval (List.mem_cons_self _ _)

/-- C9 counterexample: the line of text A colon space zero matches the
form name, separator, number (name A, number 0), so the claimed
contract derives the entry (A, 0) from it; extractPartnerHours skips it
because of its positivity test on the parsed hours, so the parser does
not return exactly the entries of the matching lines. -/
theorem extractPartnerHours_cex :
    claimExtractPartnerHours "A: 0" = [("A", 0)] ∧
      extractPartnerHours "A: 0" = [] ∧
      extractPartnerHours "A: 0" ≠ claimExtractPartnerHours "A: 0" := by
  refine ⟨?_, ?_, ?_⟩ <;> decide

/-- C9 amended: extractPartnerHours returns, in input line order, the
entries derived from the lines matching the form name, separator,
number, restricted to those whose parsed number is strictly positive;
matching lines with a zero number are skipped like non-matching ones. -/
theorem extractPartnerHours_eq_claim_filter (text : String) :
    extractPartnerHours text
      = (claimExtractPartnerHours text).filter (fun p => decide (0 < p.2)) := by
  unfold extractPartnerHours claimExtractPartnerHours
  induction splitLinesChars text.data with
  | nil => rfl
  | cons line ls ih =>
      simp only [List.filterMap_cons]
      cases hm : lineMatch line with
      | none => simpa using ih
      | some p =>
          by_cases hp : 0 < p.2
          · simp [hp, List.filter_cons, ih]
          · simp [hp, List.filter_cons, ih]

theorem string_append_ne_empty (a b : String) (ha : a ≠ "") : a ++ b ≠ "" := by
  intro h
  apply ha
  have hd : a.data ++ b.data = [] := by
    have hc := congrArg String.data h
    rwa [String.data_append] at hc
  have ha0 : a.data = [] := (List.append_eq_nil.mp hd).1
  cases a with
  | mk l => exact congrArg String.mk ha0

/-- C10: analyzeImage, modelled as a total function of its environment
(the catch-all branch absorbs every exception thrown inside the try
block, so no exception reaches the caller), always returns either a
success record with a non-empty text and no error, or a failure record
with null text and a non-empty error string — for the missing API key,
every non-OK HTTP status, the empty candidate list, the empty extracted
text, and the thrown-exception outcome alike. -/
theorem analyzeImage_contract (env : AnalyzeEnv) :
    ((analyzeImage env).text = none ∧
        ∃ e, (analyzeImage env).error = some e ∧ e ≠ "") ∨
      (∃ t, (analyzeImage env).text = some t ∧ t ≠ ""
        ∧ (analyzeImage env).error = none) := by
  obtain ⟨key, outcome⟩ := env
  by_cases hk : key = ""
  · have hv : analyzeImage ⟨key, outcome⟩
        = { text := none,
            error := some "API key missing. Please configure the Gemini API key." } := by
      simp [analyzeImage, hk]
    rw [hv]
    exact Or.inl ⟨rfl, _, rfl, by decide⟩
  · cases outcome with
    | throws =>
        have hv : analyzeImage ⟨key, FetchOutcome.throws⟩
            = { text := none,
                error := some "An unexpected error occurred while processing the image." } := by
          simp [analyzeImage, hk]
        rw [hv]
        exact Or.inl ⟨rfl, _, rfl, by decide⟩
    | notOk status errorMessage =>
        by_cases h400 : status = 400
        · have hv : analyzeImage ⟨key, FetchOutcome.notOk status errorMessage⟩
              = { text := none,
                  error := some "Bad request to Gemini API. Check your API key permissions and image format." } := by
            simp [analyzeImage, hk, h400]
          rw [hv]
          exact Or.inl ⟨rfl, _, rfl, by decide⟩
        · by_cases h403 : status = 403
          · have hv : analyzeImage ⟨key, FetchOutcome.notOk status errorMessage⟩
                = { text := none,
                    error := some "Authentication error. Your Gemini API key may be invalid or missing Vision API permissions." } := by
              simp [analyzeImage, hk, h400, h403]
            rw [hv]
            exact Or.inl ⟨rfl, _, rfl, by decide⟩
          · by_cases h429 : status = 429
            · have hv : analyzeImage ⟨key, FetchOutcome.notOk status errorMessage⟩
                  = { text := none,
                      error := some "Gemini API quota exceeded. Please try again later or check your API key limits." } := by
                simp [analyzeImage, hk, h400, h403, h429]
              rw [hv]
              exact Or.inl ⟨rfl, _, rfl, by decide⟩
            · have hv : analyzeImage ⟨key, FetchOutcome.notOk status errorMessage⟩
                  = { text := none,
                      error := some ("API Error (" ++ toString status ++ "): "
                        ++ errorMessage.getD "Failed to call Gemini API") } := by
                simp [analyzeImage, hk, h400, h403, h429]
              rw [hv]
              refine Or.inl ⟨rfl, _, rfl, ?_⟩
              exact string_append_ne_empty _ _
                (string_append_ne_empty _ _ (string_append_ne_empty _ _ (by decide)))
    | ok candidates =>
        cases candidates with
        | nil =>
            have hv : analyzeImage ⟨key, FetchOutcome.ok []⟩
                = { text := none,
                    error := some "No text extracted from the image. Try a clearer image or manual entry." } := by
              simp [analyzeImage, hk]
            rw [hv]
            exact Or.inl ⟨rfl, _, rfl, by decide⟩
        | cons c rest =>
            by_cases ht : String.intercalate "\n"
                ((c.parts.filterMap id).filter (fun s => !decide (s = ""))) = ""
            · have hv : analyzeImage ⟨key, FetchOutcome.ok (c :: rest)⟩
                  = { text := none,
                      error := some "No text extracted from the image. Try a clearer image or manual entry." } := by
                simp [analyzeImage, hk, ht]
              rw [hv]
              exact Or.inl ⟨rfl, _, rfl, by decide⟩
            · have hv : analyzeImage ⟨key, FetchOutcome.ok (c :: rest)⟩
                  = { text := some (String.intercalate "\n"
                        ((c.parts.filterMap id).filter (fun s => !decide (s = "")))),
                      error := none } := by
                simp [analyzeImage, hk, ht]
              rw [hv]
              exact Or.inr ⟨_, rfl, ht, rfl⟩
